import Mathlib

/-!
# Conduit conditional-payment protocol: a verification development

This file embeds the core of the Conduit repository in Lean 4:

* the on-chain ledger `ConditionalPayment.sol` (payment records, the six
  mutating operations, escrow transfers, revert semantics) as a state
  machine over `LedgerState`, with a trace semantics `execTrace` that
  records every escrow transfer performed;
* the Convex mirror (`payments` / `proofs` tables and their mutations and
  queries) as functions over lists of documents;
* the verification oracle client `verifyProof` and the agent-service
  reconciler's per-event decision logic.

Addresses, hashes and timestamps are modelled as `Nat` (the zero address
is `0`); the EVM guarantees that `msg.sender` is never the zero address,
which appears below as the hypothesis that every operation's sender is
nonzero where the claim needs it.  The external `call{value: amount}`
in `_safeTransfer` may fail depending on the recipient; each operation
that transfers funds therefore takes a `transferOk : Bool` environment
flag, and reverts with `TransferFailed` when it is `false`.
-/

/-- Payment status enum of `ConditionalPayment.sol` (values 0..4). -/
inductive PaymentStatus where
  | Created
  | Accepted
  | Submitted
  | Released
  | Refunded
deriving DecidableEq

/-- The `Payment` struct of `ConditionalPayment.sol`. -/
structure Payment where
  id : Nat
  principal : Nat
  worker : Nat
  verifier : Nat
  amount : Nat
  conditionHash : Nat
  status : PaymentStatus
  createdAt : Nat
  deadline : Nat
deriving DecidableEq

/-- A Solidity mapping slot that was never written: all fields zero. -/
def defaultPayment : Payment :=
  { id := 0, principal := 0, worker := 0, verifier := 0, amount := 0,
    conditionHash := 0, status := PaymentStatus.Created, createdAt := 0, deadline := 0 }

/-- Contract storage: `paymentCounter` and the `payments` mapping. -/
structure LedgerState where
  paymentCounter : Nat
  payments : Nat → Payment

/-- Storage right after deployment. -/
def initialState : LedgerState :=
  { paymentCounter := 0, payments := fun _ => defaultPayment }

/-- The custom errors declared by the contract. -/
inductive ContractError where
  | InvalidAmount
  | InvalidDeadline
  | InvalidAddress
  | InvalidStatus
  | PaymentNotFound
  | NotAuthorized
  | DeadlineNotExpired
  | DeadlineExpired
  | TransferFailed
deriving DecidableEq

/-- A value transfer performed by `_safeTransfer`. -/
structure Transfer where
  recipient : Nat
  amount : Nat
deriving DecidableEq

/-- Write one slot of the `payments` mapping. -/
def setPayment (s : LedgerState) (pid : Nat) (p : Payment) : LedgerState :=
  { s with payments := fun k => if k = pid then p else s.payments k }

/-- Result of one external call: either a revert with a specific error, or
the new storage plus the list of escrow transfers performed during the
call, tagged with the payment id they concern. -/
abbrev OpResult := Except ContractError (LedgerState × List (Nat × Transfer))

/-- `createPayment(_conditionHash, _verifier, _deadline)` with
`msg.sender = sender`, `msg.value = value`, `block.timestamp = now`. -/
def createPayment (s : LedgerState) (sender value conditionHash verifier deadline now : Nat) :
    OpResult :=
  if value = 0 then Except.error ContractError.InvalidAmount
  else if deadline ≤ now then Except.error ContractError.InvalidDeadline
  else if verifier = 0 then Except.error ContractError.InvalidAddress
  else
    let pid := s.paymentCounter + 1
    Except.ok
      ({ paymentCounter := pid,
         payments := fun k =>
           if k = pid then
             { id := pid, principal := sender, worker := 0, verifier := verifier,
               amount := value, conditionHash := conditionHash,
               status := PaymentStatus.Created, createdAt := now, deadline := deadline }
           else s.payments k }, [])

/-- `acceptPayment(_paymentId)` with `msg.sender = sender`,
`block.timestamp = now`. -/
def acceptPayment (s : LedgerState) (sender pid now : Nat) : OpResult :=
  let p := s.payments pid
  if p.id = 0 then Except.error ContractError.PaymentNotFound
  else if p.status ≠ PaymentStatus.Created then Except.error ContractError.InvalidStatus
  else if p.deadline ≤ now then Except.error ContractError.DeadlineExpired
  else if sender = p.principal then Except.error ContractError.InvalidAddress
  else Except.ok (setPayment s pid { p with worker := sender, status := PaymentStatus.Accepted }, [])

/-- `submitProof(_paymentId, _proofHash)` with `msg.sender = sender`,
`block.timestamp = now`. -/
def submitProof (s : LedgerState) (sender pid proofHash now : Nat) : OpResult :=
  let p := s.payments pid
  if p.id = 0 then Except.error ContractError.PaymentNotFound
  else if p.worker ≠ sender then Except.error ContractError.NotAuthorized
  else if p.status ≠ PaymentStatus.Accepted then Except.error ContractError.InvalidStatus
  else if p.deadline ≤ now then Except.error ContractError.DeadlineExpired
  else
    let _ := proofHash
    Except.ok (setPayment s pid { p with status := PaymentStatus.Submitted }, [])

/-- `verify(_paymentId, _approved)` with `msg.sender = sender`.  When the
proof is approved the whole call reverts if the transfer to the worker
fails (`transferOk = false`); on rejection the status goes back to
`Accepted` and nothing is transferred. -/
def verify (s : LedgerState) (sender pid : Nat) (approved transferOk : Bool) : OpResult :=
  let p := s.payments pid
  if p.id = 0 then Except.error ContractError.PaymentNotFound
  else if sender ≠ p.verifier then Except.error ContractError.NotAuthorized
  else if p.status ≠ PaymentStatus.Submitted then Except.error ContractError.InvalidStatus
  else if approved then
    if transferOk then
      Except.ok (setPayment s pid { p with status := PaymentStatus.Released },
        [(pid, { recipient := p.worker, amount := p.amount })])
    else Except.error ContractError.TransferFailed
  else Except.ok (setPayment s pid { p with status := PaymentStatus.Accepted }, [])

/-- `refundOnTimeout(_paymentId)` (callable by anyone) with
`block.timestamp = now`. -/
def refundOnTimeout (s : LedgerState) (sender pid now : Nat) (transferOk : Bool) : OpResult :=
  let _ := sender
  let p := s.payments pid
  if p.id = 0 then Except.error ContractError.PaymentNotFound
  else if p.status = PaymentStatus.Released ∨ p.status = PaymentStatus.Refunded then
    Except.error ContractError.InvalidStatus
  else if now < p.deadline then Except.error ContractError.DeadlineNotExpired
  else if transferOk then
    Except.ok (setPayment s pid { p with status := PaymentStatus.Refunded },
      [(pid, { recipient := p.principal, amount := p.amount })])
  else Except.error ContractError.TransferFailed

/-- `cancelPayment(_paymentId)` with `msg.sender = sender`. -/
def cancelPayment (s : LedgerState) (sender pid : Nat) (transferOk : Bool) : OpResult :=
  let p := s.payments pid
  if p.id = 0 then Except.error ContractError.PaymentNotFound
  else if sender ≠ p.principal then Except.error ContractError.NotAuthorized
  else if p.status ≠ PaymentStatus.Created then Except.error ContractError.InvalidStatus
  else if transferOk then
    Except.ok (setPayment s pid { p with status := PaymentStatus.Refunded },
      [(pid, { recipient := p.principal, amount := p.amount })])
  else Except.error ContractError.TransferFailed

/-- One external call to the contract, with its arguments and the relevant
environment (caller, timestamp, transfer success). -/
inductive Op where
  | create (sender value conditionHash verifier deadline now : Nat)
  | accept (sender pid now : Nat)
  | submit (sender pid proofHash now : Nat)
  | verifyOp (sender pid : Nat) (approved transferOk : Bool)
  | refund (sender pid now : Nat) (transferOk : Bool)
  | cancel (sender pid : Nat) (transferOk : Bool)

/-- The `msg.sender` of an operation. -/
def Op.sender : Op → Nat
  | Op.create s _ _ _ _ _ => s
  | Op.accept s _ _ => s
  | Op.submit s _ _ _ => s
  | Op.verifyOp s _ _ _ => s
  | Op.refund s _ _ _ => s
  | Op.cancel s _ _ => s

/-- The existing payment an operation addresses (`createPayment` addresses
none: it always creates a fresh id). -/
def Op.target : Op → Option Nat
  | Op.create _ _ _ _ _ _ => none
  | Op.accept _ pid _ => some pid
  | Op.submit _ pid _ _ => some pid
  | Op.verifyOp _ pid _ _ => some pid
  | Op.refund _ pid _ _ => some pid
  | Op.cancel _ pid _ => some pid

/-- Dispatch one call. -/
def step (s : LedgerState) : Op → OpResult
  | Op.create sender value conditionHash verifier deadline now =>
      createPayment s sender value conditionHash verifier deadline now
  | Op.accept sender pid now => acceptPayment s sender pid now
  | Op.submit sender pid proofHash now => submitProof s sender pid proofHash now
  | Op.verifyOp sender pid approved transferOk => verify s sender pid approved transferOk
  | Op.refund sender pid now transferOk => refundOnTimeout s sender pid now transferOk
  | Op.cancel sender pid transferOk => cancelPayment s sender pid transferOk

/-- Run a sequence of calls; a reverted call leaves storage untouched and
performs no transfer.  Returns the final storage and the concatenated log
of all transfers performed. -/
def execTrace (s : LedgerState) : List Op → LedgerState × List (Nat × Transfer)
  | [] => (s, [])
  | op :: rest =>
    match step s op with
    | Except.error _ => execTrace s rest
    | Except.ok (s', ts) =>
        let r := execTrace s' rest
        (r.1, ts ++ r.2)

/-- The transfers in a log that concern payment `pid`. -/
def disbursements (log : List (Nat × Transfer)) (pid : Nat) : List Transfer :=
  (log.filter (fun e => e.1 = pid)).map (fun e => e.2)

/-- The transfers that a payment record's current status accounts for:
one payout to the worker once `Released`, one refund to the principal
once `Refunded`, none otherwise. -/
def statusTransfers (p : Payment) : List Transfer :=
  match p.status with
  | PaymentStatus.Released => [{ recipient := p.worker, amount := p.amount }]
  | PaymentStatus.Refunded => [{ recipient := p.principal, amount := p.amount }]
  | _ => []

/-- A status from which the contract allows no further transition. -/
def isTerminal (st : PaymentStatus) : Bool :=
  st = PaymentStatus.Released ∨ st = PaymentStatus.Refunded

example : (execTrace initialState [Op.create 1 100 7 2 10 0]).1.paymentCounter = 1 := by decide

example :
    ((execTrace initialState
      [Op.create 1 100 7 2 10 0, Op.accept 3 1 5, Op.submit 3 1 9 5,
        Op.verifyOp 2 1 true true]).1.payments 1).status = PaymentStatus.Released := by decide

example :
    disbursements
      (execTrace initialState
        [Op.create 1 100 7 2 10 0, Op.accept 3 1 5, Op.submit 3 1 9 5,
          Op.verifyOp 2 1 true true]).2 1 = [{ recipient := 3, amount := 100 }] := by decide

/-!
## The Convex mirror

Tables are lists of documents in insertion order; `_creationTime` is the
`creationTime` field and strictly increases along a table in a real Convex
deployment.  A `withIndex(..., eq).first()` query returns the earliest
matching document (ascending `_creationTime` is the default order); with
`order("desc")` it returns the latest.  `ctx.db.patch` rewrites the named
fields of the document with the given id.  A mutation that throws is
modelled as returning `none`.
-/

/-- A document of the mirror's `payments` table (`convex/schema.ts`),
together with the system fields `_id` (`docId`) and `_creationTime`. -/
structure PaymentDoc where
  docId : Nat
  creationTime : Nat
  onChainId : String
  transactionHash : Option String
  principalAddress : String
  principalUserId : Option String
  workerAddress : Option String
  workerUserId : Option String
  verifierAddress : String
  amount : Nat
  condition : String
  conditionHash : String
  status : String
  deadline : Nat
  createdAt : Nat
  acceptedAt : Option Nat
  submittedAt : Option Nat
  verifiedAt : Option Nat
  releasedAt : Option Nat
deriving DecidableEq

/-- A document of the mirror's `proofs` table (`convex/schema.ts`). -/
structure ProofDoc where
  docId : Nat
  creationTime : Nat
  paymentId : Nat
  onChainPaymentId : String
  proofType : String
  proofText : Option String
  proofStorageId : Option String
  proofHash : String
  submittedBy : String
  submittedAt : Nat
deriving DecidableEq

/-- The two mirror tables the claims are about. -/
structure MirrorState where
  payments : List PaymentDoc
  proofs : List ProofDoc
deriving DecidableEq

/-- `query("payments").withIndex("by_on_chain_id", eq onChainId).first()`:
the earliest payment document with that on-chain id. -/
def findByOnChainId (ps : List PaymentDoc) (onChainId : String) : Option PaymentDoc :=
  (ps.filter (fun p => p.onChainId = onChainId)).head?

/-- `ctx.db.patch(docId, ...)`: rewrite the fields of the document with
this id by `f`. -/
def patchDoc (ps : List PaymentDoc) (docId : Nat) (f : PaymentDoc → PaymentDoc) :
    List PaymentDoc :=
  ps.map (fun p => if p.docId = docId then f p else p)

/-- The `accept` mutation of `convex/payments.ts` at time `now`:
look the payment up by on-chain id (throw when absent) and patch
worker fields, status and `acceptedAt`. -/
def accept (ps : List PaymentDoc) (onChainId workerAddress : String)
    (workerUserId : Option String) (now : Nat) : Option (List PaymentDoc) :=
  match findByOnChainId ps onChainId with
  | none => none
  | some payment =>
      some (patchDoc ps payment.docId (fun p =>
        { p with workerAddress := some workerAddress, workerUserId := workerUserId,
                 status := "Accepted", acceptedAt := some now }))

/-- The `markSubmitted` mutation of `convex/payments.ts` at time `now`. -/
def markSubmitted (ps : List PaymentDoc) (onChainId : String) (now : Nat) :
    Option (List PaymentDoc) :=
  match findByOnChainId ps onChainId with
  | none => none
  | some payment =>
      some (patchDoc ps payment.docId (fun p =>
        { p with status := "Submitted", submittedAt := some now }))

/-- The `updateAfterVerification` mutation of `convex/payments.ts` at time
`now`: `Released` stamps on approval, back to `Accepted` on rejection. -/
def updateAfterVerification (ps : List PaymentDoc) (onChainId : String)
    (approved : Bool) (now : Nat) : Option (List PaymentDoc) :=
  match findByOnChainId ps onChainId with
  | none => none
  | some payment =>
      if approved then
        some (patchDoc ps payment.docId (fun p =>
          { p with status := "Released", verifiedAt := some now, releasedAt := some now }))
      else
        some (patchDoc ps payment.docId (fun p =>
          { p with status := "Accepted", verifiedAt := some now }))

/-- The `markRefunded` mutation of `convex/payments.ts`. -/
def markRefunded (ps : List PaymentDoc) (onChainId : String) :
    Option (List PaymentDoc) :=
  match findByOnChainId ps onChainId with
  | none => none
  | some payment =>
      some (patchDoc ps payment.docId (fun p => { p with status := "Refunded" }))

/-- One row of the `listSubmittedWithProofs` result: the payment document
spread together with `proofHash` / `proofText` of the proof it picked. -/
structure SubmittedRow where
  payment : PaymentDoc
  proofHash : Option String
  proofText : Option String
deriving DecidableEq

/-- The `listSubmittedWithProofs` query of `convex/payments.ts`: take up
to `limit` (default 50) `Submitted` payments, latest first, and pair each
with `query("proofs").withIndex("by_payment", eq _id).first()` — the
earliest proof document for that payment. -/
def listSubmittedWithProofs (m : MirrorState) (limit : Option Nat) : List SubmittedRow :=
  let lim := limit.getD 50
  let submitted := ((m.payments.filter (fun p => p.status = "Submitted")).reverse).take lim
  submitted.map (fun payment =>
    let proof := (m.proofs.filter (fun pr => pr.paymentId = payment.docId)).head?
    { payment := payment,
      proofHash := proof.map (fun pr => pr.proofHash),
      proofText := proof.bind (fun pr => pr.proofText) })

/-- The `getByOnChainPaymentId` query of `convex/proofs.ts`: resolve the
payment, then `query("proofs").withIndex("by_payment", eq _id)
.order("desc").first()` — the latest proof document for that payment. -/
def getByOnChainPaymentId (m : MirrorState) (onChainPaymentId : String) : Option ProofDoc :=
  match findByOnChainId m.payments onChainPaymentId with
  | none => none
  | some payment =>
      (m.proofs.filter (fun pr => pr.paymentId = payment.docId)).reverse.head?

/-!
## The verification oracle client and the reconciler

`verifyProof` (`verifier.ts`) takes, besides the condition and proof
texts, the environment it reads: whether a `GEMINI_API_KEY` is
configured, and the outcome of the oracle call — `Except.error` when the
call to the model throws, `Except.ok text` when it answers.  The
function catches a failing oracle call and returns `false` ("fail safe").

`processEvent` is the decision the agent-service polling loop
(`index.ts`) takes for one deduplicated `ProofSubmitted` event after
re-reading the payment from the chain: skip it, or attempt a `verify`
transaction with the computed approval.
-/

/-- Is `needle` an initial segment of `hay`? -/
def leadsWith : List Char → List Char → Bool
  | [], _ => true
  | _ :: _, [] => false
  | a :: as, b :: bs => a = b && leadsWith as bs

/-- Does `needle` occur contiguously inside `hay`? -/
def occursIn (needle : List Char) : List Char → Bool
  | [] => leadsWith needle []
  | c :: cs => leadsWith needle (c :: cs) || occursIn needle cs

/-- JavaScript `haystack.includes(needle)`. -/
def containsSub (haystack needle : String) : Bool :=
  occursIn needle.data haystack.data

/-- JavaScript `s.toUpperCase()` (over the ASCII range the verifier uses). -/
def toUpperStr (s : String) : String :=
  String.mk (s.data.map Char.toUpper)

/-- JavaScript `s.toLowerCase()` (over the ASCII range the addresses use). -/
def toLowerStr (s : String) : String :=
  String.mk (s.data.map Char.toLower)

/-- JavaScript `s.trim()`: strip whitespace from both ends. -/
def trimStr (s : String) : String :=
  String.mk (((s.data.dropWhile Char.isWhitespace).reverse.dropWhile
    Char.isWhitespace).reverse)

/-- The oracle client `verifyProof(condition, proof)` of `verifier.ts`. -/
def verifyProof (condition proof : String) (apiKey : Option String)
    (oracleResult : Except Unit String) : Bool :=
  let _ := condition
  if proof.length < 5 then false
  else
    match apiKey with
    | some _ =>
        match oracleResult with
        | Except.error _ => false
        | Except.ok answer =>
            let text := toUpperStr (trimStr answer)
            if containsSub text "YES" then true
            else if containsSub text "NO" then false
            else false
    | none => decide (10 < proof.length)

/-- What the polling loop does with one `ProofSubmitted` event. -/
inductive ReconcilerAction where
  | skip
  | attemptVerify (pid : Nat) (approved : Bool)
deriving DecidableEq

/-- The per-event logic of the polling loop in `index.ts`: re-read the
payment (its `status` and `verifier`), skip unless it is still
`Submitted` and assigned to this agent, otherwise run `verifyProof` and
attempt the on-chain `verify` with its boolean outcome. -/
def processEvent (pid : Nat) (proof : String) (status : PaymentStatus)
    (verifierAddr agentAddr : String) (condition : String) (apiKey : Option String)
    (oracleResult : Except Unit String) : ReconcilerAction :=
  if status ≠ PaymentStatus.Submitted then ReconcilerAction.skip
  else if toLowerStr verifierAddr ≠ toLowerStr agentAddr then ReconcilerAction.skip
  else ReconcilerAction.attemptVerify pid (verifyProof condition proof apiKey oracleResult)

example :
    verifyProof "c" "a long enough proof" (some "key") (Except.error ()) = false := by decide

example :
    processEvent 1 "a long enough proof" PaymentStatus.Submitted "0xA" "0xa" "c"
      (some "key") (Except.error ()) = ReconcilerAction.attemptVerify 1 false := by decide

/-!
## Ledger lemmas: operation characterizations and the escrow invariant
-/

theorem setPayment_counter (s : LedgerState) (pid : Nat) (p : Payment) :
    (setPayment s pid p).paymentCounter = s.paymentCounter := rfl

theorem setPayment_lookup (s : LedgerState) (pid : Nat) (p : Payment) (k : Nat) :
    (setPayment s pid p).payments k = if k = pid then p else s.payments k := rfl

theorem disbursements_nil (pid : Nat) : disbursements [] pid = [] := rfl

theorem disbursements_append (l₁ l₂ : List (Nat × Transfer)) (pid : Nat) :
    disbursements (l₁ ++ l₂) pid = disbursements l₁ pid ++ disbursements l₂ pid := by
  simp [disbursements, List.filter_append]

theorem disbursements_single_ne (pid k : Nat) (t : Transfer) (h : k ≠ pid) :
    disbursements [(pid, t)] k = [] := by
  simp [disbursements, Ne.symm h]

theorem acceptPayment_ok_iff {s : LedgerState} {sender pid now : Nat}
    {s' : LedgerState} {ts : List (Nat × Transfer)} :
    acceptPayment s sender pid now = Except.ok (s', ts) ↔
      (s.payments pid).id ≠ 0 ∧ (s.payments pid).status = PaymentStatus.Created ∧
      now < (s.payments pid).deadline ∧ sender ≠ (s.payments pid).principal ∧
      s' = setPayment s pid
            { s.payments pid with worker := sender, status := PaymentStatus.Accepted } ∧
      ts = [] := by
  constructor
  · intro h
    simp only [acceptPayment] at h
    split_ifs at h with h1 h2 h3 h4
    injection h with h
    injection h with hs ht
    exact ⟨h1, not_not.mp h2, Nat.not_le.mp h3, h4, hs.symm, ht.symm⟩
  · rintro ⟨h1, h2, h3, h4, rfl, rfl⟩
    simp [acceptPayment, h1, h2, h4, Nat.not_le.mpr h3]

theorem submitProof_ok_iff {s : LedgerState} {sender pid proofHash now : Nat}
    {s' : LedgerState} {ts : List (Nat × Transfer)} :
    submitProof s sender pid proofHash now = Except.ok (s', ts) ↔
      (s.payments pid).id ≠ 0 ∧ (s.payments pid).worker = sender ∧
      (s.payments pid).status = PaymentStatus.Accepted ∧
      now < (s.payments pid).deadline ∧
      s' = setPayment s pid { s.payments pid with status := PaymentStatus.Submitted } ∧
      ts = [] := by
  constructor
  · intro h
    simp only [submitProof] at h
    split_ifs at h with h1 h2 h3 h4
    injection h with h
    injection h with hs ht
    exact ⟨h1, not_not.mp h2, not_not.mp h3, Nat.not_le.mp h4, hs.symm, ht.symm⟩
  · rintro ⟨h1, h2, h3, h4, rfl, rfl⟩
    simp [submitProof, h1, h2, h3, Nat.not_le.mpr h4]

theorem verify_ok_iff {s : LedgerState} {sender pid : Nat} {approved transferOk : Bool}
    {s' : LedgerState} {ts : List (Nat × Transfer)} :
    verify s sender pid approved transferOk = Except.ok (s', ts) ↔
      (s.payments pid).id ≠ 0 ∧ sender = (s.payments pid).verifier ∧
      (s.payments pid).status = PaymentStatus.Submitted ∧
      ((approved = true ∧ transferOk = true ∧
          s' = setPayment s pid { s.payments pid with status := PaymentStatus.Released } ∧
          ts = [(pid, { recipient := (s.payments pid).worker,
                        amount := (s.payments pid).amount })]) ∨
        (approved = false ∧
          s' = setPayment s pid { s.payments pid with status := PaymentStatus.Accepted } ∧
          ts = [])) := by
  constructor
  · intro h
    simp only [verify] at h
    split_ifs at h with h1 h2 h3 h4 h5
    · injection h with h
      injection h with hs ht
      exact ⟨h1, not_not.mp h2, not_not.mp h3, Or.inl ⟨h4, h5, hs.symm, ht.symm⟩⟩
    · injection h with h
      injection h with hs ht
      exact ⟨h1, not_not.mp h2, not_not.mp h3,
        Or.inr ⟨Bool.not_eq_true approved ▸ h4, hs.symm, ht.symm⟩⟩
  · rintro ⟨h1, h2, h3, ⟨rfl, rfl, rfl, rfl⟩ | ⟨rfl, rfl, rfl⟩⟩ <;>
      simp [verify, h1, h2, h3]

theorem refundOnTimeout_ok_iff {s : LedgerState} {sender pid now : Nat} {transferOk : Bool}
    {s' : LedgerState} {ts : List (Nat × Transfer)} :
    refundOnTimeout s sender pid now transferOk = Except.ok (s', ts) ↔
      (s.payments pid).id ≠ 0 ∧
      ¬((s.payments pid).status = PaymentStatus.Released ∨
        (s.payments pid).status = PaymentStatus.Refunded) ∧
      (s.payments pid).deadline ≤ now ∧ transferOk = true ∧
      s' = setPayment s pid { s.payments pid with status := PaymentStatus.Refunded } ∧
      ts = [(pid, { recipient := (s.payments pid).principal,
                    amount := (s.payments pid).amount })] := by
  constructor
  · intro h
    simp only [refundOnTimeout] at h
    split_ifs at h with h1 h2 h3 h4
    injection h with h
    injection h with hs ht
    exact ⟨h1, h2, Nat.not_lt.mp h3, h4, hs.symm, ht.symm⟩
  · rintro ⟨h1, h2, h3, rfl, rfl, rfl⟩
    simp [refundOnTimeout, h1, h2, Nat.not_lt.mpr h3]

theorem cancelPayment_ok_iff {s : LedgerState} {sender pid : Nat} {transferOk : Bool}
    {s' : LedgerState} {ts : List (Nat × Transfer)} :
    cancelPayment s sender pid transferOk = Except.ok (s', ts) ↔
      (s.payments pid).id ≠ 0 ∧ sender = (s.payments pid).principal ∧
      (s.payments pid).status = PaymentStatus.Created ∧ transferOk = true ∧
      s' = setPayment s pid { s.payments pid with status := PaymentStatus.Refunded } ∧
      ts = [(pid, { recipient := (s.payments pid).principal,
                    amount := (s.payments pid).amount })] := by
  constructor
  · intro h
    simp only [cancelPayment] at h
    split_ifs at h with h1 h2 h3 h4
    injection h with h
    injection h with hs ht
    exact ⟨h1, not_not.mp h2, not_not.mp h3, h4, hs.symm, ht.symm⟩
  · rintro ⟨h1, h2, h3, rfl, rfl, rfl⟩
    simp [cancelPayment, h1, h2, h3]

theorem createPayment_ok_iff {s : LedgerState}
    {sender value conditionHash verifier deadline now : Nat}
    {s' : LedgerState} {ts : List (Nat × Transfer)} :
    createPayment s sender value conditionHash verifier deadline now = Except.ok (s', ts) ↔
      value ≠ 0 ∧ now < deadline ∧ verifier ≠ 0 ∧
      s' = { paymentCounter := s.paymentCounter + 1,
             payments := fun k =>
               if k = s.paymentCounter + 1 then
                 { id := s.paymentCounter + 1, principal := sender, worker := 0,
                   verifier := verifier, amount := value, conditionHash := conditionHash,
                   status := PaymentStatus.Created, createdAt := now, deadline := deadline }
               else s.payments k } ∧
      ts = [] := by
  constructor
  · intro h
    simp only [createPayment] at h
    split_ifs at h with h1 h2 h3
    injection h with h
    injection h with hs ht
    exact ⟨h1, Nat.not_le.mp h2, h3, hs.symm, ht.symm⟩
  · rintro ⟨h1, h2, h3, rfl, rfl⟩
    simp [createPayment, h1, h3, Nat.not_le.mpr h2]

/-- Escrow-flow invariant tying storage to the transfer log: slots beyond
the counter are untouched, slot `0` is never assigned, and the transfers
logged for each payment are exactly the ones its current status accounts
for. -/
structure LedgerInv (s : LedgerState) (log : List (Nat × Transfer)) : Prop where
  fresh : ∀ pid, s.paymentCounter < pid → s.payments pid = defaultPayment
  zero : s.payments 0 = defaultPayment
  disb : ∀ pid, disbursements log pid = statusTransfers (s.payments pid)

theorem LedgerInv.exists_bound {s : LedgerState} {log : List (Nat × Transfer)} {pid : Nat}
    (inv : LedgerInv s log) (h : (s.payments pid).id ≠ 0) :
    pid ≠ 0 ∧ pid ≤ s.paymentCounter := by
  constructor
  · rintro rfl
    rw [inv.zero] at h
    exact h rfl
  · by_contra hc
    rw [inv.fresh pid (Nat.lt_of_not_le hc)] at h
    exact h rfl

theorem LedgerInv.update {s : LedgerState} {log : List (Nat × Transfer)} {pid : Nat}
    {p' : Payment} {ts : List (Nat × Transfer)} (inv : LedgerInv s log)
    (hid : (s.payments pid).id ≠ 0)
    (hold : statusTransfers (s.payments pid) = [])
    (hshape : ts = [] ∨ ∃ t, ts = [(pid, t)])
    (hnew : statusTransfers p' = disbursements ts pid) :
    LedgerInv (setPayment s pid p') (log ++ ts) := by
  obtain ⟨hpid0, hpidle⟩ := inv.exists_bound hid
  refine ⟨?_, ?_, ?_⟩
  · intro k hk
    rw [setPayment_counter] at hk
    rw [setPayment_lookup, if_neg (fun he : k = pid => absurd (he ▸ hk) (Nat.not_lt.mpr hpidle))]
    exact inv.fresh k hk
  · rw [setPayment_lookup, if_neg (Ne.symm hpid0)]
    exact inv.zero
  · intro k
    rw [disbursements_append, setPayment_lookup]
    by_cases hk : k = pid
    · subst hk
      rw [if_pos rfl, inv.disb k, hold, List.nil_append]
      exact hnew.symm
    · rw [if_neg hk, inv.disb k]
      rcases hshape with rfl | ⟨t, rfl⟩
      · rw [disbursements_nil, List.append_nil]
      · rw [disbursements_single_ne pid k t hk, List.append_nil]

theorem ledgerInv_initial : LedgerInv initialState [] :=
  ⟨fun _ _ => rfl, rfl, fun _ => rfl⟩

theorem step_preserves_inv {s : LedgerState} {log : List (Nat × Transfer)} {op : Op}
    {s' : LedgerState} {ts : List (Nat × Transfer)} (inv : LedgerInv s log)
    (h : step s op = Except.ok (s', ts)) : LedgerInv s' (log ++ ts) := by
  cases op with
  | create sender value conditionHash verifier deadline now =>
    rw [step] at h
    obtain ⟨h1, h2, h3, rfl, rfl⟩ := createPayment_ok_iff.mp h
    refine ⟨?_, ?_, ?_⟩
    · intro k hk
      simp only at hk ⊢
      rw [if_neg (by omega)]
      exact inv.fresh k (by omega)
    · simp only
      rw [if_neg (by omega)]
      exact inv.zero
    · intro k
      rw [List.append_nil]
      simp only
      by_cases hk : k = s.paymentCounter + 1
      · subst hk
        rw [if_pos rfl, inv.disb, inv.fresh _ (Nat.lt_succ_self _)]
        rfl
      · rw [if_neg hk]
        exact inv.disb k
  | accept sender pid now =>
    rw [step] at h
    obtain ⟨hid, hst, _, _, rfl, rfl⟩ := acceptPayment_ok_iff.mp h
    exact inv.update hid (by simp [statusTransfers, hst]) (Or.inl rfl)
      (by simp [statusTransfers, disbursements])
  | submit sender pid proofHash now =>
    rw [step] at h
    obtain ⟨hid, _, hst, _, rfl, rfl⟩ := submitProof_ok_iff.mp h
    exact inv.update hid (by simp [statusTransfers, hst]) (Or.inl rfl)
      (by simp [statusTransfers, disbursements])
  | verifyOp sender pid approved transferOk =>
    rw [step] at h
    obtain ⟨hid, _, hst, hcase⟩ := verify_ok_iff.mp h
    rcases hcase with ⟨_, _, rfl, rfl⟩ | ⟨_, rfl, rfl⟩
    · exact inv.update hid (by simp [statusTransfers, hst])
        (Or.inr ⟨_, rfl⟩) (by simp [statusTransfers, disbursements])
    · exact inv.update hid (by simp [statusTransfers, hst]) (Or.inl rfl)
        (by simp [statusTransfers, disbursements])
  | refund sender pid now transferOk =>
    rw [step] at h
    obtain ⟨hid, hst, _, _, rfl, rfl⟩ := refundOnTimeout_ok_iff.mp h
    push_neg at hst
    have hold : statusTransfers (s.payments pid) = [] := by
      unfold statusTransfers
      rcases hs : (s.payments pid).status <;> simp_all
    exact inv.update hid hold (Or.inr ⟨_, rfl⟩)
      (by simp [statusTransfers, disbursements])
  | cancel sender pid transferOk =>
    rw [step] at h
    obtain ⟨hid, _, hst, _, rfl, rfl⟩ := cancelPayment_ok_iff.mp h
    exact inv.update hid (by simp [statusTransfers, hst]) (Or.inr ⟨_, rfl⟩)
      (by simp [statusTransfers, disbursements])

theorem execTrace_inv (ops : List Op) (s : LedgerState) (log : List (Nat × Transfer))
    (inv : LedgerInv s log) :
    LedgerInv (execTrace s ops).1 (log ++ (execTrace s ops).2) := by
  induction ops generalizing s log with
  | nil => simpa [execTrace] using inv
  | cons op rest ih =>
    cases hstep : step s op with
    | error e =>
      simpa [execTrace, hstep] using ih s log inv
    | ok pr =>
      obtain ⟨s', ts⟩ := pr
      have := ih s' (log ++ ts) (step_preserves_inv inv hstep)
      simpa [execTrace, hstep, List.append_assoc] using this

/-- Characterization of the `worker` field across reachable storage: a
`Created` payment has no worker, and a workerless payment is either still
`Created` or was refunded/cancelled before anyone accepted it. -/
def WorkerInv (s : LedgerState) : Prop :=
  ∀ pid,
    ((s.payments pid).status = PaymentStatus.Created → (s.payments pid).worker = 0) ∧
    ((s.payments pid).worker = 0 →
      (s.payments pid).status = PaymentStatus.Created ∨
      (s.payments pid).status = PaymentStatus.Refunded)

theorem workerInv_initial : WorkerInv initialState :=
  fun _ => ⟨fun _ => rfl, fun _ => Or.inl rfl⟩

theorem workerInv_update {s : LedgerState} {pid : Nat} {p' : Payment}
    (hw : WorkerInv s)
    (h1 : p'.status = PaymentStatus.Created → p'.worker = 0)
    (h2 : p'.worker = 0 →
      p'.status = PaymentStatus.Created ∨ p'.status = PaymentStatus.Refunded) :
    WorkerInv (setPayment s pid p') := by
  intro k
  dsimp only [setPayment]
  by_cases hk : k = pid
  · rw [if_pos hk]
    exact ⟨h1, h2⟩
  · rw [if_neg hk]
    exact hw k

theorem step_preserves_workerInv {s : LedgerState} {op : Op}
    {s' : LedgerState} {ts : List (Nat × Transfer)} (hw : WorkerInv s)
    (hsender : op.sender ≠ 0) (h : step s op = Except.ok (s', ts)) : WorkerInv s' := by
  cases op with
  | create sender value conditionHash verifier deadline now =>
    rw [step] at h
    obtain ⟨_, _, _, rfl, rfl⟩ := createPayment_ok_iff.mp h
    intro k
    simp only
    by_cases hk : k = s.paymentCounter + 1
    · rw [if_pos hk]
      exact ⟨fun _ => rfl, fun _ => Or.inl rfl⟩
    · rw [if_neg hk]
      exact hw k
  | accept sender pid now =>
    rw [step] at h
    obtain ⟨_, _, _, _, rfl, rfl⟩ := acceptPayment_ok_iff.mp h
    refine workerInv_update hw (fun habs => absurd habs (by simp)) (fun habs => ?_)
    exact absurd habs (by simpa [Op.sender] using hsender)
  | submit sender pid proofHash now =>
    rw [step] at h
    obtain ⟨_, hwk, hst, _, rfl, rfl⟩ := submitProof_ok_iff.mp h
    refine workerInv_update hw (fun habs => absurd habs (by simp)) (fun habs => ?_)
    have habs' : (s.payments pid).worker = 0 := habs
    rcases (hw pid).2 habs' with hc | hc <;> rw [hst] at hc <;> exact absurd hc (by simp)
  | verifyOp sender pid approved transferOk =>
    rw [step] at h
    obtain ⟨_, _, hst, hcase⟩ := verify_ok_iff.mp h
    have hwk : (s.payments pid).worker ≠ 0 := by
      intro habs
      rcases (hw pid).2 habs with hc | hc <;> rw [hst] at hc <;> exact absurd hc (by simp)
    rcases hcase with ⟨_, _, rfl, rfl⟩ | ⟨_, rfl, rfl⟩ <;>
      exact workerInv_update hw (fun habs => absurd habs (by simp))
        (fun habs => absurd habs hwk)
  | refund sender pid now transferOk =>
    rw [step] at h
    obtain ⟨_, _, _, _, rfl, rfl⟩ := refundOnTimeout_ok_iff.mp h
    exact workerInv_update hw (fun habs => absurd habs (by simp)) (fun _ => Or.inr rfl)
  | cancel sender pid transferOk =>
    rw [step] at h
    obtain ⟨_, _, _, _, rfl, rfl⟩ := cancelPayment_ok_iff.mp h
    exact workerInv_update hw (fun habs => absurd habs (by simp)) (fun _ => Or.inr rfl)

theorem execTrace_workerInv (ops : List Op) (s : LedgerState)
    (hwf : ∀ op ∈ ops, Op.sender op ≠ 0) (hw : WorkerInv s) :
    WorkerInv (execTrace s ops).1 := by
  induction ops generalizing s with
  | nil => simpa [execTrace] using hw
  | cons op rest ih =>
    cases hstep : step s op with
    | error e =>
      simpa [execTrace, hstep] using
        ih s (fun o ho => hwf o (List.mem_cons_of_mem _ ho)) hw
    | ok pr =>
      obtain ⟨s', ts⟩ := pr
      have hw' := step_preserves_workerInv hw (hwf op (List.mem_cons_self _ _)) hstep
      simpa [execTrace, hstep] using
        ih s' (fun o ho => hwf o (List.mem_cons_of_mem _ ho)) hw'

theorem terminal_no_success {s : LedgerState} {pid : Nat} {op : Op}
    (hterm : (s.payments pid).status = PaymentStatus.Released ∨
             (s.payments pid).status = PaymentStatus.Refunded)
    (htgt : Op.target op = some pid) :
    ∀ out, step s op ≠ Except.ok out := by
  rintro ⟨s', ts⟩ hok
  cases op with
  | create sender value conditionHash verifier deadline now =>
    simp [Op.target] at htgt
  | accept sender pid' now =>
    obtain rfl : pid' = pid := by simpa [Op.target] using htgt
    rw [step] at hok
    obtain ⟨_, hst, _⟩ := acceptPayment_ok_iff.mp hok
    rcases hterm with h | h <;> rw [hst] at h <;> exact absurd h (by simp)
  | submit sender pid' proofHash now =>
    obtain rfl : pid' = pid := by simpa [Op.target] using htgt
    rw [step] at hok
    obtain ⟨_, _, hst, _⟩ := submitProof_ok_iff.mp hok
    rcases hterm with h | h <;> rw [hst] at h <;> exact absurd h (by simp)
  | verifyOp sender pid' approved transferOk =>
    obtain rfl : pid' = pid := by simpa [Op.target] using htgt
    rw [step] at hok
    obtain ⟨_, _, hst, _⟩ := verify_ok_iff.mp hok
    rcases hterm with h | h <;> rw [hst] at h <;> exact absurd h (by simp)
  | refund sender pid' now transferOk =>
    obtain rfl : pid' = pid := by simpa [Op.target] using htgt
    rw [step] at hok
    obtain ⟨_, hst, _⟩ := refundOnTimeout_ok_iff.mp hok
    exact hst hterm
  | cancel sender pid' transferOk =>
    obtain rfl : pid' = pid := by simpa [Op.target] using htgt
    rw [step] at hok
    obtain ⟨_, _, hst, _⟩ := cancelPayment_ok_iff.mp hok
    rcases hterm with h | h <;> rw [hst] at h <;> exact absurd h (by simp)

/-- **C1.**  Over every sequence of ledger operations run from the deployed
contract, each payment's escrow leaves the contract exactly once and only
at the step that first makes its status `Released` (one transfer of
`amount` to the worker) or `Refunded` (one transfer of `amount` to the
principal); while the status is non-terminal nothing has been disbursed,
and once it is terminal no operation addressing that payment can succeed
again. -/
theorem c1_escrow_disbursed_exactly_once (ops : List Op) (pid : Nat) :
    (((execTrace initialState ops).1.payments pid).status = PaymentStatus.Released →
      disbursements (execTrace initialState ops).2 pid =
        [{ recipient := ((execTrace initialState ops).1.payments pid).worker,
           amount := ((execTrace initialState ops).1.payments pid).amount }]) ∧
    (((execTrace initialState ops).1.payments pid).status = PaymentStatus.Refunded →
      disbursements (execTrace initialState ops).2 pid =
        [{ recipient := ((execTrace initialState ops).1.payments pid).principal,
           amount := ((execTrace initialState ops).1.payments pid).amount }]) ∧
    (((execTrace initialState ops).1.payments pid).status ≠ PaymentStatus.Released →
      ((execTrace initialState ops).1.payments pid).status ≠ PaymentStatus.Refunded →
      disbursements (execTrace initialState ops).2 pid = []) ∧
    (((execTrace initialState ops).1.payments pid).status = PaymentStatus.Released ∨
      ((execTrace initialState ops).1.payments pid).status = PaymentStatus.Refunded →
      ∀ op, Op.target op = some pid →
        ∀ out, step (execTrace initialState ops).1 op ≠ Except.ok out) := by
  have inv := execTrace_inv ops initialState [] ledgerInv_initial
  rw [List.nil_append] at inv
  refine ⟨?_, ?_, ?_, ?_⟩
  · intro h
    rw [inv.disb pid]
    simp [statusTransfers, h]
  · intro h
    rw [inv.disb pid]
    simp [statusTransfers, h]
  · intro h1 h2
    rw [inv.disb pid]
    unfold statusTransfers
    rcases hs : ((execTrace initialState ops).1.payments pid).status <;> simp_all
  · exact fun hterm op htgt => terminal_no_success hterm htgt

/-- Witness for C1 at a concrete trace: create(100), accept, submit,
approve — the final status is `Released` and exactly the one transfer of
100 to the worker (address 3) was performed. -/
theorem c1_escrow_disbursed_exactly_once_witness :
    (((execTrace initialState [Op.create 1 100 7 2 10 0, Op.accept 3 1 5,
        Op.submit 3 1 9 5, Op.verifyOp 2 1 true true]).1.payments 1).status =
      PaymentStatus.Released) ∧
    disbursements (execTrace initialState [Op.create 1 100 7 2 10 0, Op.accept 3 1 5,
        Op.submit 3 1 9 5, Op.verifyOp 2 1 true true]).2 1 =
      [{ recipient := 3, amount := 100 }] := by
  refine ⟨by decide, ?_⟩
  have := (c1_escrow_disbursed_exactly_once [Op.create 1 100 7 2 10 0, Op.accept 3 1 5,
    Op.submit 3 1 9 5, Op.verifyOp 2 1 true true] 1).1 (by decide)
  rw [this]
  decide

theorem execTrace_cons_ok {s : LedgerState} {op : Op} {s' : LedgerState}
    {ts : List (Nat × Transfer)} (rest : List Op)
    (h : step s op = Except.ok (s', ts)) :
    execTrace s (op :: rest) = ((execTrace s' rest).1, ts ++ (execTrace s' rest).2) := by
  rw [execTrace, h]

/-- **C2.**  For a `Submitted` payment, `verify` by the payment's verifier
with `approved = true` releases: status becomes `Released` and the amount
is transferred to the worker; with `approved = false` it reverts the
status to `Accepted` and transfers nothing.  Consequently the
reject-then-resubmit cycle accept → submit → verify(false) → submit →
verify(true) run on a fresh `Created` payment ends `Released` with
exactly one disbursement of the original amount, to the worker. -/
theorem c2_verify_and_resubmit_cycle :
    (∀ (s : LedgerState) (sender pid : Nat),
      (s.payments pid).id ≠ 0 → sender = (s.payments pid).verifier →
      (s.payments pid).status = PaymentStatus.Submitted →
      verify s sender pid true true =
        Except.ok (setPayment s pid { s.payments pid with status := PaymentStatus.Released },
          [(pid, { recipient := (s.payments pid).worker,
                   amount := (s.payments pid).amount })])) ∧
    (∀ (s : LedgerState) (sender pid : Nat) (transferOk : Bool),
      (s.payments pid).id ≠ 0 → sender = (s.payments pid).verifier →
      (s.payments pid).status = PaymentStatus.Submitted →
      verify s sender pid false transferOk =
        Except.ok (setPayment s pid { s.payments pid with status := PaymentStatus.Accepted },
          [])) ∧
    (∀ (s : LedgerState) (pid w v ph1 ph2 now : Nat),
      (s.payments pid).id ≠ 0 → (s.payments pid).status = PaymentStatus.Created →
      v = (s.payments pid).verifier → w ≠ (s.payments pid).principal →
      now < (s.payments pid).deadline →
      (((execTrace s [Op.accept w pid now, Op.submit w pid ph1 now,
          Op.verifyOp v pid false true, Op.submit w pid ph2 now,
          Op.verifyOp v pid true true]).1.payments pid).status = PaymentStatus.Released ∧
        disbursements (execTrace s [Op.accept w pid now, Op.submit w pid ph1 now,
          Op.verifyOp v pid false true, Op.submit w pid ph2 now,
          Op.verifyOp v pid true true]).2 pid =
          [{ recipient := w, amount := (s.payments pid).amount }])) := by
  refine ⟨?_, ?_, ?_⟩
  · intro s sender pid hid hv hst
    exact verify_ok_iff.mpr ⟨hid, hv, hst, Or.inl ⟨rfl, rfl, rfl, rfl⟩⟩
  · intro s sender pid transferOk hid hv hst
    exact verify_ok_iff.mpr ⟨hid, hv, hst, Or.inr ⟨rfl, rfl, rfl⟩⟩
  · intro s pid w v ph1 ph2 now hid hst hveq hwp hdl
    obtain ⟨s1, e1, l1⟩ :
        ∃ s1, step s (Op.accept w pid now) = Except.ok (s1, []) ∧
          s1.payments pid =
            { s.payments pid with worker := w, status := PaymentStatus.Accepted } :=
      ⟨_, by rw [step]; exact acceptPayment_ok_iff.mpr ⟨hid, hst, hdl, hwp, rfl, rfl⟩,
        by simp [setPayment]⟩
    obtain ⟨s2, e2, l2⟩ :
        ∃ s2, step s1 (Op.submit w pid ph1 now) = Except.ok (s2, []) ∧
          s2.payments pid = { s1.payments pid with status := PaymentStatus.Submitted } := by
      refine ⟨setPayment s1 pid { s1.payments pid with status := PaymentStatus.Submitted },
        ?_, by simp [setPayment]⟩
      rw [step]
      refine submitProof_ok_iff.mpr ⟨?_, ?_, ?_, ?_, rfl, rfl⟩
      · rw [l1]; exact hid
      · rw [l1]
      · rw [l1]
      · rw [l1]; exact hdl
    obtain ⟨s3, e3, l3⟩ :
        ∃ s3, step s2 (Op.verifyOp v pid false true) = Except.ok (s3, []) ∧
          s3.payments pid = { s2.payments pid with status := PaymentStatus.Accepted } := by
      refine ⟨setPayment s2 pid { s2.payments pid with status := PaymentStatus.Accepted },
        ?_, by simp [setPayment]⟩
      rw [step]
      refine verify_ok_iff.mpr ⟨?_, ?_, ?_, Or.inr ⟨rfl, rfl, rfl⟩⟩
      · rw [l2, l1]; exact hid
      · rw [l2, l1]; exact hveq
      · rw [l2]
    obtain ⟨s4, e4, l4⟩ :
        ∃ s4, step s3 (Op.submit w pid ph2 now) = Except.ok (s4, []) ∧
          s4.payments pid = { s3.payments pid with status := PaymentStatus.Submitted } := by
      refine ⟨setPayment s3 pid { s3.payments pid with status := PaymentStatus.Submitted },
        ?_, by simp [setPayment]⟩
      rw [step]
      refine submitProof_ok_iff.mpr ⟨?_, ?_, ?_, ?_, rfl, rfl⟩
      · rw [l3, l2, l1]; exact hid
      · rw [l3, l2, l1]
      · rw [l3]
      · rw [l3, l2, l1]; exact hdl
    have hw4 : (s4.payments pid).worker = w := by rw [l4, l3, l2, l1]
    have ham4 : (s4.payments pid).amount = (s.payments pid).amount := by rw [l4, l3, l2, l1]
    obtain ⟨s5, e5, l5⟩ :
        ∃ s5, step s4 (Op.verifyOp v pid true true) =
            Except.ok (s5, [(pid, { recipient := (s4.payments pid).worker,
                                    amount := (s4.payments pid).amount })]) ∧
          s5.payments pid = { s4.payments pid with status := PaymentStatus.Released } := by
      refine ⟨setPayment s4 pid { s4.payments pid with status := PaymentStatus.Released },
        ?_, by simp [setPayment]⟩
      rw [step]
      refine verify_ok_iff.mpr ⟨?_, ?_, ?_, Or.inl ⟨rfl, rfl, rfl, rfl⟩⟩
      · rw [l4, l3, l2, l1]; exact hid
      · rw [l4, l3, l2, l1]; exact hveq
      · rw [l4]
    rw [hw4, ham4] at e5
    rw [execTrace_cons_ok _ e1, execTrace_cons_ok _ e2, execTrace_cons_ok _ e3,
      execTrace_cons_ok _ e4, execTrace_cons_ok _ e5]
    refine ⟨?_, ?_⟩
    · simp only [execTrace]
      rw [l5]
    · simp [execTrace, disbursements]

/-- Witness for C2 at a concrete trace: after create(100 to verifier 2,
worker 3), the reject-then-resubmit cycle releases once, 100 to worker 3. -/
theorem c2_verify_and_resubmit_cycle_witness :
    (((execTrace (execTrace initialState [Op.create 1 100 7 2 10 0]).1
        [Op.accept 3 1 5, Op.submit 3 1 11 5, Op.verifyOp 2 1 false true,
          Op.submit 3 1 12 5, Op.verifyOp 2 1 true true]).1.payments 1).status =
      PaymentStatus.Released) ∧
    disbursements (execTrace (execTrace initialState [Op.create 1 100 7 2 10 0]).1
        [Op.accept 3 1 5, Op.submit 3 1 11 5, Op.verifyOp 2 1 false true,
          Op.submit 3 1 12 5, Op.verifyOp 2 1 true true]).2 1 =
      [{ recipient := 3, amount := 100 }] := by
  have h := c2_verify_and_resubmit_cycle.2.2
    (execTrace initialState [Op.create 1 100 7 2 10 0]).1 1 3 2 11 12 5
    (by decide) (by decide) (by decide) (by decide) (by decide)
  refine ⟨h.1, ?_⟩
  rw [h.2]
  decide

/-- **C4.**  For an existing payment past its deadline, `refundOnTimeout`
succeeds from any of `Created`, `Accepted`, `Submitted`: the status
becomes `Refunded` and the amount is transferred to the principal.  It
reverts with `InvalidStatus` once the payment is `Released` or
`Refunded`, and with `DeadlineNotExpired` when a non-terminal payment's
deadline has not passed. -/
theorem c4_refund_on_timeout (s : LedgerState) (sender pid now : Nat) :
    ((s.payments pid).id ≠ 0 →
      ((s.payments pid).status = PaymentStatus.Created ∨
        (s.payments pid).status = PaymentStatus.Accepted ∨
        (s.payments pid).status = PaymentStatus.Submitted) →
      (s.payments pid).deadline ≤ now →
      ∃ s', refundOnTimeout s sender pid now true =
          Except.ok (s', [(pid, { recipient := (s.payments pid).principal,
                                  amount := (s.payments pid).amount })]) ∧
        (s'.payments pid).status = PaymentStatus.Refunded) ∧
    ((s.payments pid).id ≠ 0 →
      ((s.payments pid).status = PaymentStatus.Released ∨
        (s.payments pid).status = PaymentStatus.Refunded) →
      ∀ transferOk, refundOnTimeout s sender pid now transferOk =
        Except.error ContractError.InvalidStatus) ∧
    ((s.payments pid).id ≠ 0 →
      ¬((s.payments pid).status = PaymentStatus.Released ∨
        (s.payments pid).status = PaymentStatus.Refunded) →
      now < (s.payments pid).deadline →
      ∀ transferOk, refundOnTimeout s sender pid now transferOk =
        Except.error ContractError.DeadlineNotExpired) := by
  refine ⟨?_, ?_, ?_⟩
  · intro hid hst hdl
    refine ⟨setPayment s pid { s.payments pid with status := PaymentStatus.Refunded },
      ?_, by simp [setPayment]⟩
    refine refundOnTimeout_ok_iff.mpr ⟨hid, ?_, hdl, rfl, rfl, rfl⟩
    rcases hst with h | h | h <;> rw [h] <;> simp
  · intro hid hterm transferOk
    simp [refundOnTimeout, hid, hterm]
  · intro hid hterm hlt transferOk
    simp [refundOnTimeout, hid, hterm, hlt]

/-- Witness for C4: a never-accepted payment (deadline 10) refunded by an
unrelated caller at time 10. -/
theorem c4_refund_on_timeout_witness :
    ∃ s', refundOnTimeout (execTrace initialState [Op.create 1 100 7 2 10 0]).1 5 1 10 true =
        Except.ok (s', [(1, { recipient := 1, amount := 100 })]) ∧
      (s'.payments 1).status = PaymentStatus.Refunded := by
  have h := (c4_refund_on_timeout (execTrace initialState [Op.create 1 100 7 2 10 0]).1
    5 1 10).1 (by decide) (Or.inl (by decide)) (by decide)
  obtain ⟨s', hs', hst⟩ := h
  refine ⟨s', ?_, hst⟩
  rw [hs']
  exact congrArg (fun l => Except.ok (s', l)) (by decide)

/-- **C9.**  `verify` has no deadline precondition: a `Submitted` payment
whose deadline has already passed can still be approved by its verifier,
releasing the escrow to the worker — as long as no `refundOnTimeout`
went through first (which would have made the status `Refunded`). -/
theorem c9_verify_succeeds_after_deadline (s : LedgerState) (sender pid now : Nat) :
    (s.payments pid).id ≠ 0 → sender = (s.payments pid).verifier →
    (s.payments pid).status = PaymentStatus.Submitted →
    (s.payments pid).deadline ≤ now →
    ∃ s', verify s sender pid true true =
        Except.ok (s', [(pid, { recipient := (s.payments pid).worker,
                                amount := (s.payments pid).amount })]) ∧
      (s'.payments pid).status = PaymentStatus.Released := by
  intro hid hv hst _
  exact ⟨setPayment s pid { s.payments pid with status := PaymentStatus.Released },
    verify_ok_iff.mpr ⟨hid, hv, hst, Or.inl ⟨rfl, rfl, rfl, rfl⟩⟩, by simp [setPayment]⟩

/-- Witness for C9: payment with deadline 10 is accepted and submitted at
time 5, then verified at time 10 (deadline expired) — still released. -/
theorem c9_verify_succeeds_after_deadline_witness :
    ∃ s', verify (execTrace initialState
        [Op.create 1 100 7 2 10 0, Op.accept 3 1 5, Op.submit 3 1 9 5]).1 2 1 true true =
        Except.ok (s', [(1, { recipient := 3, amount := 100 })]) ∧
      (s'.payments 1).status = PaymentStatus.Released := by
  have h := c9_verify_succeeds_after_deadline (execTrace initialState
    [Op.create 1 100 7 2 10 0, Op.accept 3 1 5, Op.submit 3 1 9 5]).1 2 1 10
    (by decide) (by decide) (by decide) (by decide)
  obtain ⟨s', hs', hst⟩ := h
  refine ⟨s', ?_, hst⟩
  rw [hs']
  exact congrArg (fun l => Except.ok (s', l)) (by decide)

/-- **C10 (amended).**  `acceptPayment` excludes only the principal as
caller, so whenever a payment's verifier differs from its principal
(`createPayment` never forces this), the verifier itself can accept the
`Created` payment before the deadline, submit a proof as its worker, and
approve it via `verify`, transferring the escrow to itself. -/
theorem c10_verifier_can_self_deal (s : LedgerState) (pid ph now : Nat) :
    (s.payments pid).id ≠ 0 → (s.payments pid).status = PaymentStatus.Created →
    (s.payments pid).verifier ≠ (s.payments pid).principal →
    now < (s.payments pid).deadline →
    (((execTrace s [Op.accept (s.payments pid).verifier pid now,
        Op.submit (s.payments pid).verifier pid ph now,
        Op.verifyOp (s.payments pid).verifier pid true true]).1.payments pid).status =
      PaymentStatus.Released ∧
      ((execTrace s [Op.accept (s.payments pid).verifier pid now,
        Op.submit (s.payments pid).verifier pid ph now,
        Op.verifyOp (s.payments pid).verifier pid true true]).1.payments pid).worker =
        (s.payments pid).verifier ∧
      disbursements (execTrace s [Op.accept (s.payments pid).verifier pid now,
        Op.submit (s.payments pid).verifier pid ph now,
        Op.verifyOp (s.payments pid).verifier pid true true]).2 pid =
        [{ recipient := (s.payments pid).verifier, amount := (s.payments pid).amount }]) := by
  intro hid hst hvp hdl
  obtain ⟨s1, e1, l1⟩ :
      ∃ s1, step s (Op.accept (s.payments pid).verifier pid now) = Except.ok (s1, []) ∧
        s1.payments pid = { s.payments pid with worker := (s.payments pid).verifier, status := PaymentStatus.Accepted } :=
    ⟨_, by rw [step]; exact acceptPayment_ok_iff.mpr ⟨hid, hst, hdl, hvp, rfl, rfl⟩,
      by simp [setPayment]⟩
  obtain ⟨s2, e2, l2⟩ :
      ∃ s2, step s1 (Op.submit (s.payments pid).verifier pid ph now) = Except.ok (s2, []) ∧
        s2.payments pid = { s1.payments pid with status := PaymentStatus.Submitted } := by
    refine ⟨setPayment s1 pid { s1.payments pid with status := PaymentStatus.Submitted },
      ?_, by simp [setPayment]⟩
    rw [step]
    refine submitProof_ok_iff.mpr ⟨?_, ?_, ?_, ?_, rfl, rfl⟩
    · rw [l1]; exact hid
    · rw [l1]
    · rw [l1]
    · rw [l1]; exact hdl
  have hw2 : (s2.payments pid).worker = (s.payments pid).verifier := by rw [l2, l1]
  have ham2 : (s2.payments pid).amount = (s.payments pid).amount := by rw [l2, l1]
  obtain ⟨s3, e3, l3⟩ :
      ∃ s3, step s2 (Op.verifyOp (s.payments pid).verifier pid true true) =
          Except.ok (s3, [(pid, { recipient := (s2.payments pid).worker,
                                  amount := (s2.payments pid).amount })]) ∧
        s3.payments pid = { s2.payments pid with status := PaymentStatus.Released } := by
    refine ⟨setPayment s2 pid { s2.payments pid with status := PaymentStatus.Released },
      ?_, by simp [setPayment]⟩
    rw [step]
    refine verify_ok_iff.mpr ⟨?_, ?_, ?_, Or.inl ⟨rfl, rfl, rfl, rfl⟩⟩
    · rw [l2, l1]; exact hid
    · rw [l2, l1]
    · rw [l2]
  rw [hw2, ham2] at e3
  rw [execTrace_cons_ok _ e1, execTrace_cons_ok _ e2, execTrace_cons_ok _ e3]
  refine ⟨?_, ?_, ?_⟩
  · simp only [execTrace]
    rw [l3]
  · simp only [execTrace]
    rw [l3, l2, l1]
  · simp [execTrace, disbursements]

/-- Witness for C10: on a fresh payment from principal 1 with verifier 2,
the verifier walks away with the 100-unit escrow. -/
theorem c10_verifier_can_self_deal_witness :
    (((execTrace (execTrace initialState [Op.create 1 100 7 2 10 0]).1
        [Op.accept 2 1 5, Op.submit 2 1 11 5, Op.verifyOp 2 1 true true]).1.payments 1).status =
      PaymentStatus.Released) ∧
    disbursements (execTrace (execTrace initialState [Op.create 1 100 7 2 10 0]).1
        [Op.accept 2 1 5, Op.submit 2 1 11 5, Op.verifyOp 2 1 true true]).2 1 =
      [{ recipient := 2, amount := 100 }] := by
  have h := c10_verifier_can_self_deal (execTrace initialState [Op.create 1 100 7 2 10 0]).1
    1 11 5 (by decide) (by decide) (by decide) (by decide)
  rw [show ((execTrace initialState [Op.create 1 100 7 2 10 0]).1.payments 1).verifier = 2
    from by decide] at h
  refine ⟨h.1, ?_⟩
  rw [h.2.2]
  decide

/-- Counterexample to C10 as stated: `createPayment` does not force the
verifier to differ from the principal, and when they coincide the
verifier cannot accept — `acceptPayment` reverts with `InvalidAddress`. -/
theorem c10_counterexample :
    (((execTrace initialState [Op.create 1 100 7 1 10 0]).1.payments 1).status =
        PaymentStatus.Created ∧
      ((execTrace initialState [Op.create 1 100 7 1 10 0]).1.payments 1).verifier =
        ((execTrace initialState [Op.create 1 100 7 1 10 0]).1.payments 1).principal ∧
      (5 : Nat) < ((execTrace initialState [Op.create 1 100 7 1 10 0]).1.payments 1).deadline) ∧
    acceptPayment (execTrace initialState [Op.create 1 100 7 1 10 0]).1
        ((execTrace initialState [Op.create 1 100 7 1 10 0]).1.payments 1).verifier 1 5 =
      Except.error ContractError.InvalidAddress := by
  exact ⟨by decide, rfl⟩

/-- **C5 (amended).**  In every reachable ledger state (callers are never
the zero address), a `Created` payment has the null worker, and a payment
with null worker is either `Created` or was refunded/cancelled straight
from `Created` (status `Refunded`); so `worker = null` does not imply
`status = Created`. -/
theorem c5_worker_null_characterization (ops : List Op)
    (hwf : ∀ op ∈ ops, Op.sender op ≠ 0) (pid : Nat) :
    (((execTrace initialState ops).1.payments pid).status = PaymentStatus.Created →
      ((execTrace initialState ops).1.payments pid).worker = 0) ∧
    (((execTrace initialState ops).1.payments pid).worker = 0 →
      ((execTrace initialState ops).1.payments pid).status = PaymentStatus.Created ∨
      ((execTrace initialState ops).1.payments pid).status = PaymentStatus.Refunded) :=
  execTrace_workerInv ops initialState hwf workerInv_initial pid

/-- Witness for C5 at a concrete trace: a freshly created payment is
`Created` and its worker is the zero address. -/
theorem c5_worker_null_characterization_witness :
    (∀ op ∈ [Op.create 1 100 7 2 10 0], Op.sender op ≠ 0) ∧
    ((execTrace initialState [Op.create 1 100 7 2 10 0]).1.payments 1).worker = 0 :=
  ⟨by decide,
    (c5_worker_null_characterization [Op.create 1 100 7 2 10 0] (by decide) 1).1 (by decide)⟩

/-- Counterexample to C5 as stated ("worker is null iff status is
Created"): refunding a never-accepted payment reaches a state whose
worker is still null while the status is `Refunded`, not `Created`. -/
theorem c5_counterexample :
    (∀ op ∈ [Op.create 1 100 7 2 10 0, Op.refund 3 1 10 true], Op.sender op ≠ 0) ∧
    ((execTrace initialState [Op.create 1 100 7 2 10 0, Op.refund 3 1 10 true]).1.payments
        1).id ≠ 0 ∧
    ((execTrace initialState [Op.create 1 100 7 2 10 0, Op.refund 3 1 10 true]).1.payments
        1).worker = 0 ∧
    ((execTrace initialState [Op.create 1 100 7 2 10 0, Op.refund 3 1 10 true]).1.payments
        1).status = PaymentStatus.Refunded ∧
    PaymentStatus.Refunded ≠ PaymentStatus.Created := by
  decide

/-- **C6 (amended).**  In every reachable ledger state, `submitProof` on
an existing `Created` payment is rejected with no mutation, but with the
`NotAuthorized` error kind, not `InvalidStatus`: a `Created` payment has
the null worker, so the `worker == msg.sender` authorization check fails
before the status check is reached. -/
theorem c6_submit_on_created_rejected (ops : List Op)
    (hwf : ∀ op ∈ ops, Op.sender op ≠ 0) (sender pid ph now : Nat) :
    ((execTrace initialState ops).1.payments pid).id ≠ 0 →
    ((execTrace initialState ops).1.payments pid).status = PaymentStatus.Created →
    sender ≠ 0 →
    submitProof (execTrace initialState ops).1 sender pid ph now =
      Except.error ContractError.NotAuthorized := by
  intro hid hst hs
  have hwk := (execTrace_workerInv ops initialState hwf workerInv_initial pid).1 hst
  simp [submitProof, hid, hwk, Ne.symm hs]

/-- Witness for C6: submitting on a fresh `Created` payment from any
nonzero caller is rejected as `NotAuthorized`. -/
theorem c6_submit_on_created_rejected_witness :
    submitProof (execTrace initialState [Op.create 1 100 7 2 10 0]).1 3 1 9 5 =
      Except.error ContractError.NotAuthorized :=
  c6_submit_on_created_rejected [Op.create 1 100 7 2 10 0] (by decide) 3 1 9 5
    (by decide) (by decide) (by decide)

/-- Counterexample to C6 as stated: the rejection on a `Created` payment
carries the `NotAuthorized` kind, which is not the claimed
`InvalidStatus` kind. -/
theorem c6_counterexample :
    ((execTrace initialState [Op.create 1 100 7 2 10 0]).1.payments 1).status =
        PaymentStatus.Created ∧
    submitProof (execTrace initialState [Op.create 1 100 7 2 10 0]).1 3 1 9 5 =
      Except.error ContractError.NotAuthorized ∧
    (Except.error ContractError.NotAuthorized ≠
      (Except.error ContractError.InvalidStatus : OpResult)) := by
  refine ⟨by decide, rfl, ?_⟩
  intro h
  rw [Except.error.injEq] at h
  exact ContractError.noConfusion h

/-- **C3 (amended).**  When the oracle call fails, `verifyProof` catches
the error and returns `false` ("fail safe"), so for a still-`Submitted`
payment assigned to this agent the reconciler does attempt a `verify`
transition — with `approved = false` — which moves the payment from
`Submitted` back to `Accepted` on the ledger (no funds move on this
path); the ledger state is therefore not left unchanged. -/
theorem c3_oracle_failure_attempts_reject (condition proof key : String)
    (verifierAddr agentAddr : String) (s : LedgerState) (sender pid : Nat)
    (hmatch : toLowerStr verifierAddr = toLowerStr agentAddr)
    (hid : (s.payments pid).id ≠ 0) (hv : sender = (s.payments pid).verifier)
    (hst : (s.payments pid).status = PaymentStatus.Submitted) :
    verifyProof condition proof (some key) (Except.error ()) = false ∧
    processEvent pid proof PaymentStatus.Submitted verifierAddr agentAddr condition
        (some key) (Except.error ()) = ReconcilerAction.attemptVerify pid false ∧
    verify s sender pid false true =
      Except.ok (setPayment s pid { s.payments pid with status := PaymentStatus.Accepted },
        []) := by
  refine ⟨?_, ?_, ?_⟩
  · simp [verifyProof]
  · simp [processEvent, hmatch, verifyProof]
  · exact verify_ok_iff.mpr ⟨hid, hv, hst, Or.inr ⟨rfl, rfl, rfl⟩⟩

/-- Witness for C3 (amended) at concrete data: oracle error on payment 1
leads to `attemptVerify 1 false`, sending the ledger record back to
`Accepted`. -/
theorem c3_oracle_failure_attempts_reject_witness :
    verifyProof "c" "a proof" (some "key") (Except.error ()) = false ∧
    processEvent 1 "a proof" PaymentStatus.Submitted "0xAB" "0xab" "c"
        (some "key") (Except.error ()) = ReconcilerAction.attemptVerify 1 false ∧
    verify (execTrace initialState
        [Op.create 1 100 7 2 10 0, Op.accept 3 1 5, Op.submit 3 1 9 5]).1 2 1 false true =
      Except.ok (setPayment (execTrace initialState
          [Op.create 1 100 7 2 10 0, Op.accept 3 1 5, Op.submit 3 1 9 5]).1 1
          { (execTrace initialState
              [Op.create 1 100 7 2 10 0, Op.accept 3 1 5, Op.submit 3 1 9 5]).1.payments 1 with
            status := PaymentStatus.Accepted }, []) :=
  c3_oracle_failure_attempts_reject "c" "a proof" "key" "0xAB" "0xab"
    (execTrace initialState [Op.create 1 100 7 2 10 0, Op.accept 3 1 5, Op.submit 3 1 9 5]).1
    2 1 (by decide) (by decide) (by decide) (by decide)

/-- Counterexample to C3 as stated: with the oracle call failing, the
reconciler does not skip — it attempts `verify(pid, false)`, and running
that transition on a ledger whose payment 1 is `Submitted` changes the
ledger state (status back to `Accepted`). -/
theorem c3_counterexample :
    processEvent 1 "a proof" PaymentStatus.Submitted "0xAB" "0xab" "c"
        (some "key") (Except.error ()) = ReconcilerAction.attemptVerify 1 false ∧
    ReconcilerAction.attemptVerify 1 false ≠ ReconcilerAction.skip ∧
    (((execTrace initialState [Op.create 1 100 7 2 10 0, Op.accept 3 1 5,
        Op.submit 3 1 9 5]).1.payments 1).status = PaymentStatus.Submitted) ∧
    (((execTrace initialState [Op.create 1 100 7 2 10 0, Op.accept 3 1 5,
        Op.submit 3 1 9 5, Op.verifyOp 2 1 false true]).1.payments 1).status =
      PaymentStatus.Accepted) ∧
    PaymentStatus.Accepted ≠ PaymentStatus.Submitted := by
  decide

/-!
## Mirror lemmas: idempotence of the transition patches
-/

theorem findByOnChainId_patch (ps : List PaymentDoc) (d : Nat)
    (f : PaymentDoc → PaymentDoc) (oc : String)
    (hoc : ∀ p, (f p).onChainId = p.onChainId) :
    findByOnChainId (patchDoc ps d f) oc =
      Option.map (fun p => if p.docId = d then f p else p) (findByOnChainId ps oc) := by
  unfold findByOnChainId patchDoc
  rw [List.filter_map, List.head?_map]
  have hfilter : List.filter ((fun p => decide (p.onChainId = oc)) ∘
        fun p => if p.docId = d then f p else p) ps =
      List.filter (fun p => decide (p.onChainId = oc)) ps := by
    apply List.filter_congr
    intro p _
    by_cases hp : p.docId = d <;> simp [hp, hoc]
  rw [hfilter]

theorem patchDoc_idem (ps : List PaymentDoc) (d : Nat) (f : PaymentDoc → PaymentDoc)
    (hdoc : ∀ p, (f p).docId = p.docId) (hf : ∀ p, f (f p) = f p) :
    patchDoc (patchDoc ps d f) d f = patchDoc ps d f := by
  unfold patchDoc
  rw [List.map_map]
  apply List.map_congr_left
  intro p _
  by_cases hp : p.docId = d <;> simp [Function.comp, hp, hdoc, hf]

theorem patch_step (ps : List PaymentDoc) (oc : String) (f : PaymentDoc → PaymentDoc)
    (payment : PaymentDoc)
    (hoc : ∀ p, (f p).onChainId = p.onChainId)
    (hdoc : ∀ p, (f p).docId = p.docId)
    (hf : ∀ p, f (f p) = f p)
    (hfind : findByOnChainId ps oc = some payment) :
    findByOnChainId (patchDoc ps payment.docId f) oc = some (f payment) ∧
    patchDoc (patchDoc ps payment.docId f) (f payment).docId f =
      patchDoc ps payment.docId f := by
  constructor
  · rw [findByOnChainId_patch ps payment.docId f oc hoc, hfind]
    simp
  · rw [hdoc payment]
    exact patchDoc_idem ps payment.docId f hdoc hf

/-- **C7.**  Each mirror transition patch (`accept`, `markSubmitted`,
`updateAfterVerification`, `markRefunded`) is idempotent: re-applying the
same mutation with identical arguments (including the ambient timestamp
it stamps) to its own result is a no-op in effect. -/
theorem c7_mirror_patches_idempotent :
    (∀ (ps : List PaymentDoc) (oc w : String) (wu : Option String) (now : Nat)
        (ps' : List PaymentDoc),
      accept ps oc w wu now = some ps' → accept ps' oc w wu now = some ps') ∧
    (∀ (ps : List PaymentDoc) (oc : String) (now : Nat) (ps' : List PaymentDoc),
      markSubmitted ps oc now = some ps' → markSubmitted ps' oc now = some ps') ∧
    (∀ (ps : List PaymentDoc) (oc : String) (approved : Bool) (now : Nat)
        (ps' : List PaymentDoc),
      updateAfterVerification ps oc approved now = some ps' →
        updateAfterVerification ps' oc approved now = some ps') ∧
    (∀ (ps : List PaymentDoc) (oc : String) (ps' : List PaymentDoc),
      markRefunded ps oc = some ps' → markRefunded ps' oc = some ps') := by
  refine ⟨?_, ?_, ?_, ?_⟩
  · intro ps oc w wu now ps' h
    unfold accept at h ⊢
    cases hfind : findByOnChainId ps oc with
    | none => rw [hfind] at h; exact absurd h (by simp)
    | some payment =>
        rw [hfind] at h
        injection h with h
        subst h
        obtain ⟨hfind', hpp⟩ := patch_step ps oc
          (fun p => { p with workerAddress := some w, workerUserId := wu, status := "Accepted", acceptedAt := some now }) payment
          (fun p => rfl) (fun p => rfl) (fun p => rfl) hfind
        rw [hfind']
        exact congrArg some hpp
  · intro ps oc now ps' h
    unfold markSubmitted at h ⊢
    cases hfind : findByOnChainId ps oc with
    | none => rw [hfind] at h; exact absurd h (by simp)
    | some payment =>
        rw [hfind] at h
        injection h with h
        subst h
        obtain ⟨hfind', hpp⟩ := patch_step ps oc
          (fun p => { p with status := "Submitted", submittedAt := some now }) payment
          (fun p => rfl) (fun p => rfl) (fun p => rfl) hfind
        rw [hfind']
        exact congrArg some hpp
  · intro ps oc approved now ps' h
    cases approved
    · unfold updateAfterVerification at h ⊢
      cases hfind : findByOnChainId ps oc with
      | none => rw [hfind] at h; exact absurd h (by simp)
      | some payment =>
          rw [hfind] at h
          have h' : some (patchDoc ps payment.docId
              (fun p => { p with status := "Accepted", verifiedAt := some now })) = some ps' := h
          injection h' with h'
          subst h'
          obtain ⟨hfind', hpp⟩ := patch_step ps oc
            (fun p => { p with status := "Accepted", verifiedAt := some now }) payment
            (fun p => rfl) (fun p => rfl) (fun p => rfl) hfind
          rw [hfind']
          exact congrArg some hpp
    · unfold updateAfterVerification at h ⊢
      cases hfind : findByOnChainId ps oc with
      | none => rw [hfind] at h; exact absurd h (by simp)
      | some payment =>
          rw [hfind] at h
          have h' : some (patchDoc ps payment.docId
              (fun p => { p with status := "Released", verifiedAt := some now, releasedAt := some now })) = some ps' := h
          injection h' with h'
          subst h'
          obtain ⟨hfind', hpp⟩ := patch_step ps oc
            (fun p => { p with status := "Released", verifiedAt := some now, releasedAt := some now }) payment
            (fun p => rfl) (fun p => rfl) (fun p => rfl) hfind
          rw [hfind']
          exact congrArg some hpp
  · intro ps oc ps' h
    unfold markRefunded at h ⊢
    cases hfind : findByOnChainId ps oc with
    | none => rw [hfind] at h; exact absurd h (by simp)
    | some payment =>
        rw [hfind] at h
        injection h with h
        subst h
        obtain ⟨hfind', hpp⟩ := patch_step ps oc
          (fun p => { p with status := "Refunded" }) payment
          (fun p => rfl) (fun p => rfl) (fun p => rfl) hfind
        rw [hfind']
        exact congrArg some hpp

/-- A mirror payment document used as concrete test data. -/
def samplePaymentDoc : PaymentDoc :=
  { docId := 1, creationTime := 1, onChainId := "1", transactionHash := none,
    principalAddress := "0xp", principalUserId := none, workerAddress := none,
    workerUserId := none, verifierAddress := "0xv", amount := 100, condition := "c",
    conditionHash := "h", status := "Created", deadline := 10, createdAt := 1,
    acceptedAt := none, submittedAt := none, verifiedAt := none, releasedAt := none }

/-- Witness for C7: applying the `accept` patch twice at concrete data
gives the same table as applying it once. -/
theorem c7_mirror_patches_idempotent_witness :
    accept [samplePaymentDoc] "1" "0xw" none 5 =
      some [{ samplePaymentDoc with workerAddress := some "0xw", workerUserId := none, status := "Accepted", acceptedAt := some 5 }] ∧
    accept [{ samplePaymentDoc with workerAddress := some "0xw", workerUserId := none, status := "Accepted", acceptedAt := some 5 }] "1" "0xw" none 5 =
      some [{ samplePaymentDoc with workerAddress := some "0xw", workerUserId := none, status := "Accepted", acceptedAt := some 5 }] :=
  ⟨by decide,
    c7_mirror_patches_idempotent.1 [samplePaymentDoc] "1" "0xw" none 5 _ (by decide)⟩

/-!
## The join view and the latest proof
-/

theorem head_min_of_sorted (l : List ProofDoc) (first : ProofDoc) (tail : List ProofDoc)
    (hsorted : l.Pairwise (fun a b => a.creationTime < b.creationTime))
    (hcons : l = first :: tail) :
    ∀ x ∈ l, first.creationTime ≤ x.creationTime := by
  subst hcons
  intro x hx
  rcases List.mem_cons.mp hx with rfl | hx
  · exact Nat.le_refl _
  · exact Nat.le_of_lt ((List.pairwise_cons.mp hsorted).1 x hx)

/-- **C8 (amended).**  With the `proofs` table in creation order (strictly
increasing `_creationTime`, as Convex guarantees), the
`listSubmittedWithProofs` view pairs each `Submitted` payment with its
EARLIEST proof record — `withIndex(...).first()` reads in ascending
creation order — while `getByOnChainPaymentId`, which orders descending,
returns the latest proof. -/
theorem c8_view_pairs_earliest_proof (m : MirrorState) (limit : Option Nat)
    (hsorted : m.proofs.Pairwise (fun a b => a.creationTime < b.creationTime)) :
    (∀ row ∈ listSubmittedWithProofs m limit, ∀ pr ∈ m.proofs,
      pr.paymentId = row.payment.docId →
      ∃ first, first ∈ m.proofs ∧ first.paymentId = row.payment.docId ∧
        row.proofHash = some first.proofHash ∧ row.proofText = first.proofText ∧
        first.creationTime ≤ pr.creationTime) ∧
    (∀ (oc : String) (payment : PaymentDoc), findByOnChainId m.payments oc = some payment →
      ∀ pr ∈ m.proofs, pr.paymentId = payment.docId →
      ∃ last, getByOnChainPaymentId m oc = some last ∧ last ∈ m.proofs ∧
        last.paymentId = payment.docId ∧ pr.creationTime ≤ last.creationTime) := by
  constructor
  · intro row hrow pr hpr hpid
    unfold listSubmittedWithProofs at hrow
    rw [List.mem_map] at hrow
    obtain ⟨payment, hpay, hroweq⟩ := hrow
    subst hroweq
    have hpid' : pr.paymentId = payment.docId := hpid
    have hprfl : pr ∈ m.proofs.filter (fun q => q.paymentId = payment.docId) :=
      List.mem_filter.mpr ⟨hpr, by simp [hpid']⟩
    cases hfl : m.proofs.filter (fun q => q.paymentId = payment.docId) with
    | nil => rw [hfl] at hprfl; exact absurd hprfl (List.not_mem_nil pr)
    | cons first tail =>
      have hmemfl : first ∈ m.proofs.filter (fun q => q.paymentId = payment.docId) :=
        hfl ▸ List.mem_cons_self first tail
      have hsor : (m.proofs.filter (fun q => q.paymentId = payment.docId)).Pairwise
          (fun a b => a.creationTime < b.creationTime) :=
        List.Pairwise.sublist (List.filter_sublist m.proofs) hsorted
      refine ⟨first, (List.mem_filter.mp hmemfl).1,
        by simpa using (List.mem_filter.mp hmemfl).2, ?_, ?_, ?_⟩
      · rfl
      · rfl
      · exact head_min_of_sorted _ first tail hsor hfl pr (hfl ▸ hprfl)
  · intro oc payment hfind pr hpr hpid
    have hprfl : pr ∈ m.proofs.filter (fun q => q.paymentId = payment.docId) :=
      List.mem_filter.mpr ⟨hpr, by simp [hpid]⟩
    have hprrev : pr ∈ (m.proofs.filter (fun q => q.paymentId = payment.docId)).reverse :=
      List.mem_reverse.mpr hprfl
    have hsor : (m.proofs.filter (fun q => q.paymentId = payment.docId)).Pairwise
        (fun a b => a.creationTime < b.creationTime) :=
      List.Pairwise.sublist (List.filter_sublist m.proofs) hsorted
    have hsorrev := List.pairwise_reverse.mpr hsor
    cases hfl : (m.proofs.filter (fun q => q.paymentId = payment.docId)).reverse with
    | nil => rw [hfl] at hprrev; exact absurd hprrev (List.not_mem_nil pr)
    | cons last tail =>
      have hmemrev : last ∈ (m.proofs.filter (fun q => q.paymentId = payment.docId)).reverse :=
        hfl ▸ List.mem_cons_self last tail
      have hmemfl := List.mem_reverse.mp hmemrev
      refine ⟨last, ?_, (List.mem_filter.mp hmemfl).1,
        by simpa using (List.mem_filter.mp hmemfl).2, ?_⟩
      · show (match findByOnChainId m.payments oc with
          | none => none
          | some payment =>
              (m.proofs.filter (fun q => q.paymentId = payment.docId)).reverse.head?) =
            some last
        rw [hfind]
        show ((m.proofs.filter (fun q => q.paymentId = payment.docId)).reverse).head? =
          some last
        rw [hfl]
        rfl
      · rw [hfl] at hprrev
        rcases List.mem_cons.mp hprrev with rfl | hx
        · exact Nat.le_refl _
        · rw [hfl] at hsorrev
          exact Nat.le_of_lt ((List.pairwise_cons.mp hsorrev).1 pr hx)

/-- A `Submitted` mirror payment used as concrete test data. -/
def submittedPaymentDoc : PaymentDoc :=
  { docId := 1, creationTime := 1, onChainId := "1", transactionHash := none,
    principalAddress := "0xp", principalUserId := none, workerAddress := some "0xw",
    workerUserId := none, verifierAddress := "0xv", amount := 100, condition := "c",
    conditionHash := "h", status := "Submitted", deadline := 10, createdAt := 1,
    acceptedAt := some 2, submittedAt := some 3, verifiedAt := none, releasedAt := none }

/-- The first (earlier) proof submitted for payment 1. -/
def proofDocOne : ProofDoc :=
  { docId := 10, creationTime := 4, paymentId := 1, onChainPaymentId := "1",
    proofType := "text", proofText := some "first proof", proofStorageId := none,
    proofHash := "h1", submittedBy := "0xw", submittedAt := 4 }

/-- The second (later) proof, submitted after a rejection. -/
def proofDocTwo : ProofDoc :=
  { docId := 11, creationTime := 6, paymentId := 1, onChainPaymentId := "1",
    proofType := "text", proofText := some "second proof", proofStorageId := none,
    proofHash := "h2", submittedBy := "0xw", submittedAt := 6 }

/-- A mirror with one `Submitted` payment that has two proof records. -/
def sampleMirror : MirrorState :=
  { payments := [submittedPaymentDoc], proofs := [proofDocOne, proofDocTwo] }

/-- Witness for C8 (amended): on `sampleMirror` the view's row for payment
1 carries the earliest proof, whose creation time bounds `proofDocTwo`'s. -/
theorem c8_view_pairs_earliest_proof_witness :
    ∃ first, first ∈ sampleMirror.proofs ∧
      first.paymentId =
        ({ payment := submittedPaymentDoc, proofHash := some "h1",
           proofText := some "first proof" } : SubmittedRow).payment.docId ∧
      ({ payment := submittedPaymentDoc, proofHash := some "h1",
         proofText := some "first proof" } : SubmittedRow).proofHash = some first.proofHash ∧
      ({ payment := submittedPaymentDoc, proofHash := some "h1",
         proofText := some "first proof" } : SubmittedRow).proofText = first.proofText ∧
      first.creationTime ≤ proofDocTwo.creationTime :=
  (c8_view_pairs_earliest_proof sampleMirror none (by decide)).1
    { payment := submittedPaymentDoc, proofHash := some "h1", proofText := some "first proof" }
    (by decide) proofDocTwo (by decide) (by decide)

/-- Counterexample to C8 as stated: with two proofs for the `Submitted`
payment, the join view returns the first-submitted proof `h1`, while the
latest proof (which `getByOnChainPaymentId` returns) is `h2`. -/
theorem c8_counterexample :
    (listSubmittedWithProofs sampleMirror none).map (fun r => r.proofHash) = [some "h1"] ∧
    Option.map (fun pr => pr.proofHash) (getByOnChainPaymentId sampleMirror "1") =
      some "h2" ∧
    (some "h1" : Option String) ≠ some "h2" := by
  decide
